import Mathlib

/-!
Verification of the collection aggregation and statistics pipeline of the
bgm-game-report application (a Bangumi year-in-review generator).

The development shallowly embeds the data model and the pure logic of

  - src/hooks/useBangumiGames.ts   (paginated collection loader)
  - src/hooks/useSubjectsTags.ts   (detail fetch with cache, tag / platform stats)
  - src/App.tsx                    (year filter over the collection)
  - src/components/SummaryCard.tsx (top/bottom ranking, radar rescaling)

and proves the behavioural properties stated in the specification.
JavaScript integers are modelled as Nat, exact fractional display values as
Rat, and the square-root display rescaling over Real.  A JavaScript stable
Array.sort with a numeric comparator is modelled by List.insertionSort (any
two stable sorts w.r.t. the same total preorder agree).  JavaScript Record
objects that are only ever read by key are modelled as functions into
Option; Record objects whose entries are enumerated (Object.entries, which
yields string keys in insertion order) are modelled as association lists in
insertion order.
-/

namespace BgmReport

/-- JavaScript `toUpperCase()`, on the ASCII range the tag vocabularies
use (character-wise upper-casing). -/
def jsToUpper (s : String) : String := ⟨s.data.map Char.toUpper⟩

/-- JavaScript `s1 || s2` on strings: the empty string is falsy. -/
def jsOrString (v : Option String) (dflt : String) : String :=
  match v with
  | some s => if s = "" then dflt else s
  | none => dflt

/-! ### Paginated collection loader (src/hooks/useBangumiGames.ts)

The loader requests `GET .../collections?...&limit=30&offset={pageParam}`,
starting from `initialPageParam = 0`; the driving effect in App.tsx calls
`fetchNextPage` while `hasNextPage` holds, so pages are fetched until
`getNextPageParam` yields `undefined` (modelled by `none`). -/

/-- The `getNextPageParam` of `useBangumiGames`: the next offset is
`allPages.length * 30`; `undefined` is returned once it reaches the
server-reported total. -/
def getNextPageParam (total : Nat) (numPages : Nat) : Option Nat :=
  let nextOffset := numPages * 30
  if total ≤ nextOffset then none else some nextOffset

/-- The offsets requested after the initial page, driven by
`getNextPageParam`; `fuel` is an upper bound on the number of remaining
pages (the loop stops by itself, fuel only makes the recursion
structural). -/
def fetchLoop (total : Nat) (numPages : Nat) : Nat → List Nat
  | 0 => []
  | fuel + 1 =>
    match getNextPageParam total numPages with
    | none => []
    | some off => off :: fetchLoop total (numPages + 1) fuel

/-- All offsets requested by the loader for a server-reported `total`:
the initial page at offset 0 is always requested, further pages follow
`getNextPageParam`. -/
def requestOffsets (total : Nat) : List Nat :=
  0 :: fetchLoop total 1 total

/-- Number of items the server returns for the page at `offset`
(each page carries `min 30 remaining` items). -/
def pageItems (total : Nat) (offset : Nat) : Nat :=
  min 30 (total - offset)

/-- Number of page requests the loader issues. -/
def requestCount (total : Nat) : Nat :=
  (requestOffsets total).length

/-- Total number of items accumulated over all requested pages. -/
def accumulatedItems (total : Nat) : Nat :=
  ((requestOffsets total).map (pageItems total)).sum

/-- Ceiling division `total / 30`, the page count promised by the spec. -/
def ceilPages (total : Nat) : Nat :=
  (total + 29) / 30

lemma mul30_lt_iff_lt_ceilPages (total j : Nat) :
    j * 30 < total ↔ j < ceilPages total := by
  have hdm := Nat.div_add_mod (total + 29) 30
  have hlt : (total + 29) % 30 < 30 := Nat.mod_lt _ (by norm_num)
  unfold ceilPages
  omega

lemma ceilPages_le (total : Nat) : ceilPages total ≤ total + 1 := by
  have hdm := Nat.div_add_mod (total + 29) 30
  have hlt : (total + 29) % 30 < 30 := Nat.mod_lt _ (by norm_num)
  unfold ceilPages
  omega

lemma fetchLoop_eq (total : Nat) :
    ∀ (fuel n : Nat), 1 ≤ n → ceilPages total ≤ n + fuel →
      fetchLoop total n fuel =
        (List.range (ceilPages total - n)).map (fun i => (n + i) * 30) := by
  intro fuel
  induction fuel with
  | zero =>
    intro n _ hK
    simp [fetchLoop, Nat.sub_eq_zero_of_le (by omega : ceilPages total ≤ n)]
  | succ fuel ih =>
    intro n hn hK
    by_cases h : total ≤ n * 30
    · have hKn : ceilPages total ≤ n := by
        by_contra hcon
        have := (mul30_lt_iff_lt_ceilPages total n).2 (by omega)
        omega
      simp [fetchLoop, getNextPageParam, h, Nat.sub_eq_zero_of_le hKn]
    · have hlt : n < ceilPages total :=
        (mul30_lt_iff_lt_ceilPages total n).1 (by omega)
      have hrec := ih (n + 1) (by omega) (by omega)
      have hrange : ceilPages total - n = (ceilPages total - (n + 1)) + 1 := by omega
      simp only [fetchLoop, getNextPageParam, if_neg (by omega : ¬ total ≤ n * 30), hrec,
        hrange, List.range_succ_eq_map, List.map_cons, List.map_map]
      refine congrArg₂ List.cons (by omega) ?_
      apply List.map_congr_left
      intro i _
      simp only [Function.comp_apply]
      omega

lemma requestOffsets_eq (total : Nat) :
    requestOffsets total =
      (List.range (max 1 (ceilPages total))).map (fun i => i * 30) := by
  have h := fetchLoop_eq total total 1 (by omega) (by have := ceilPages_le total; omega)
  unfold requestOffsets
  rw [h]
  rcases Nat.eq_zero_or_pos (ceilPages total) with h0 | hpos
  · rw [h0]
    simp [List.range_succ]
  · have hmax : max 1 (ceilPages total) = ceilPages total := by omega
    have hK : ceilPages total = (ceilPages total - 1) + 1 := by omega
    rw [hmax, hK, List.range_succ_eq_map]
    simp only [List.map_cons, List.map_map, Nat.zero_mul]
    refine congrArg₂ List.cons rfl ?_
    apply List.map_congr_left
    intro i _
    simp only [Function.comp_apply]
    omega

lemma sum_pageItems (m : Nat) :
    ∀ t : Nat, t ≤ 30 * m →
      ((List.range m).map (fun i => min 30 (t - i * 30))).sum = t := by
  induction m with
  | zero =>
    intro t ht
    have ht0 : t = 0 := by omega
    simp [ht0]
  | succ m ih =>
    intro t ht
    rw [List.range_succ_eq_map]
    simp only [List.map_cons, List.map_map, List.sum_cons]
    have hcong : ((List.range m).map ((fun i => min 30 (t - i * 30)) ∘ Nat.succ)).sum
        = ((List.range m).map (fun i => min 30 ((t - 30) - i * 30))).sum := by
      congr 1
      apply List.map_congr_left
      intro i _
      simp only [Function.comp_apply]
      congr 1
      omega
    rw [hcong, ih (t - 30) (by omega)]
    omega

/-! ### Subject detail enrichment (src/hooks/useSubjectsTags.ts)

`fetchSubjectDetails` consults a durable key-value cache
(`localStorage`, key `bgm_subject_details_v3_` ++ subjectId), then the
remote subject endpoint.  The cache lookup distinguishes three states of a
stored entry: it parses and has the expected shape (an array `tags` field
and an `infobox` field), it parses but is malformed, or `JSON.parse`
throws (the entry is then removed).  A network call can succeed with a
payload, return a non-success status, or throw. -/

/-- Parsed staff credits (the `infobox` field of `SubjectDetail`). -/
structure Infobox where
  developers : List String
  scenarists : List String
  deriving DecidableEq, Repr

/-- The enrichment record for one subject. -/
structure SubjectDetail where
  tags : List String
  platform : String
  infobox : Infobox
  deriving DecidableEq, Repr

/-- An element of a list-valued infobox field in the remote payload:
`v` is its `.v` property when present; `raw` stands for the element
itself, pushed when `.v` is absent or falsy (the code runs
`developers.push(v.v || v)`). -/
structure InfoboxEntryItem where
  v : Option String
  raw : String
  deriving DecidableEq, Repr

/-- A remote infobox value is either a scalar or a list of elements. -/
inductive InfoboxValue
  | str (s : String)
  | list (items : List InfoboxEntryItem)
  deriving DecidableEq, Repr

/-- One key/value pair of the remote `infobox` array. -/
structure InfoboxItem where
  key : String
  value : InfoboxValue
  deriving DecidableEq, Repr

/-- One element of the remote `tags` array, carrying a `name`. -/
structure TagEntry where
  name : String
  deriving DecidableEq, Repr

/-- The JSON payload of a successful subject-detail response; `none`
models an absent field (`data.tags || []`, `data.platform` defaulted to Unknown,
and the `Array.isArray` guard on `data.infobox`). -/
structure SubjectData where
  tags : Option (List TagEntry)
  platform : Option String
  infobox : Option (List InfoboxItem)
  deriving DecidableEq, Repr

/-- The infobox keys treated as developer credits. -/
def DEV_KEYS : List String := ["开发", "开发商", "Developer"]

/-- The infobox keys treated as scenarist/writer credits. -/
def SCENARIO_KEYS : List String := ["剧本", "脚本", "Scenario", "Writer"]

/-- The strings pushed for one infobox value: a scalar is pushed as is; a
list pushes `v.v || v` for each element. -/
def pushedValues : InfoboxValue → List String
  | .str s => [s]
  | .list items => items.map (fun it =>
      match it.v with
      | some s => if s = "" then it.raw else s
      | none => it.raw)

/-- The `parseInfobox` function: collects developer and scenarist names in iteration
order and deduplicates each list keeping first occurrences
(the code builds a `Set` from the array). -/
def parseInfobox (infobox : List InfoboxItem) : Infobox :=
  let developers :=
    (infobox.filter (fun it => DEV_KEYS.contains it.key)).flatMap
      (fun it => pushedValues it.value)
  let scenarists :=
    (infobox.filter (fun it => SCENARIO_KEYS.contains it.key)).flatMap
      (fun it => pushedValues it.value)
  ⟨developers.eraseDups, scenarists.eraseDups⟩

/-- Behaviour of `parseInfobox` on a possibly absent / non-array `infobox`
field (the code returns empty lists in that case). -/
def parseInfoboxOpt : Option (List InfoboxItem) → Infobox
  | none => ⟨[], []⟩
  | some l => parseInfobox l

/-- The state of the durable cache entry for one subject identifier. -/
inductive CachedValue
  | wellFormed (d : SubjectDetail)
  | malformed
  | unparseable
  deriving DecidableEq, Repr

/-- Outcome of the network round trip for one subject identifier:
a parsed payload, a non-success HTTP status, or a thrown error. -/
inductive FetchOutcome
  | ok (data : SubjectData)
  | httpError
  | exn
  deriving DecidableEq, Repr

/-- The degraded default detail: empty tags, platform Unknown, empty
staff lists. -/
def defaultDetail : SubjectDetail := ⟨[], "Unknown", ⟨[], []⟩⟩

/-- Result of one `fetchSubjectDetails` call: the returned detail,
whether a network request was issued, and the cache entry afterwards. -/
structure FetchResult where
  detail : SubjectDetail
  networkCalled : Bool
  cacheAfter : Option CachedValue
  deriving DecidableEq, Repr

/-- Processing of a successful payload: the first 10 tag names, the
platform defaulted to Unknown when absent or empty, and the parsed
infobox. -/
def processData (data : SubjectData) : SubjectDetail :=
  ⟨((data.tags.getD []).take 10).map (fun t => t.name),
   jsOrString data.platform "Unknown",
   parseInfoboxOpt data.infobox⟩

/-- The network phase of `fetchSubjectDetails`: a non-success status or a
thrown error yields the default detail and leaves the cache as it stood
after the cache check; success stores the processed result in the cache
before returning it. -/
def doNetworkFetch (cacheNow : Option CachedValue) (net : FetchOutcome) : FetchResult :=
  match net with
  | .httpError => ⟨defaultDetail, true, cacheNow⟩
  | .exn => ⟨defaultDetail, true, cacheNow⟩
  | .ok data =>
      let result := processData data
      ⟨result, true, some (.wellFormed result)⟩

/-- The `fetchSubjectDetails` function for one subject identifier, as a function of the
cache entry and of the network outcome: a well-formed cached entry is
returned without a network call; a malformed entry is ignored (but kept);
an unparseable entry is removed; otherwise the network is consulted. -/
def fetchSubjectDetails (cache : Option CachedValue) (net : FetchOutcome) : FetchResult :=
  match cache with
  | some (.wellFormed d) => ⟨d, false, some (.wellFormed d)⟩
  | some .malformed => doNetworkFetch (some .malformed) net
  | some .unparseable => doNetworkFetch none net
  | none => doNetworkFetch none net

/-- The detail map built by the `useSubjectsDetails` query function: each
identifier is fetched (under the concurrency limiter) and the results are
assigned into a record keyed by identifier.  The record is modelled by its
read function. -/
def useSubjectsDetailsMap (subjectIds : List Nat) (cache : Nat → Option CachedValue)
    (net : Nat → FetchOutcome) : Nat → Option SubjectDetail :=
  (subjectIds.map (fun id => (id, (fetchSubjectDetails (cache id) (net id)).detail))).foldl
    (fun m r => fun k => if k = r.1 then some r.2 else m k) (fun _ => none)

/-! ### Tag / platform statistics (src/hooks/useSubjectsTags.ts) -/

/-- The fixed genre vocabulary, uppercased as in the source. -/
def GENRE_TAGS : List String :=
  (["Galgame", "AAVG", "ACT", "ADV", "ARPG", "AVG", "CCG", "CRPG", "DBG", "DRPG",
    "EDU", "FPS", "FTG", "Fly", "Horror", "JRPG", "MMORPG", "MOBA", "MUG", "PUZ",
    "Platform", "RAC", "RPG", "RTS", "RTT", "Rhythm", "Roguelike", "SIM", "SLG"]).map
    (fun t => jsToUpper t)

/-- JS `stats[k] = (stats[k] || 0) + 1` on a record enumerated later by
`Object.entries`: an existing key is updated in place, a new key is
appended (string keys enumerate in insertion order). -/
def bumpStat (stats : List (String × Nat)) (k : String) : List (String × Nat) :=
  if stats.any (fun p => p.1 == k)
  then stats.map (fun p => if p.1 == k then (k, p.2 + 1) else p)
  else stats ++ [(k, 1)]

/-- The uppercased first tag of an item that belongs to the genre
vocabulary (the loop over `detail.tags` breaks at the first hit). -/
def firstGenreTag (tags : List String) : Option String :=
  tags.findSome? (fun t =>
    let upperTag := jsToUpper t
    if GENRE_TAGS.contains upperTag then some upperTag else none)

/-- The genre counters accumulated by `calculateTagStats` before
formatting: one increment per item with an enrichment record and a
genre-matching tag. -/
def calculateTagStatsMap (subjectIds : List Nat)
    (detailMap : Nat → Option SubjectDetail) : List (String × Nat) :=
  subjectIds.foldl (fun stats id =>
    match detailMap id with
    | none => stats
    | some detail =>
      match firstGenreTag detail.tags with
      | some g => bumpStat stats g
      | none => stats) []

/-- Descending order on counter entries, the order produced by the JS
comparator (a, b) => b[1] - a[1]. -/
def countGE (a b : String × Nat) : Prop := b.2 ≤ a.2

instance : DecidableRel countGE := fun a b => inferInstanceAs (Decidable (b.2 ≤ a.2))

instance : IsTotal (String × Nat) countGE := ⟨fun a b => Nat.le_total b.2 a.2⟩

instance : IsTrans (String × Nat) countGE := ⟨fun _ _ _ h1 h2 => Nat.le_trans h2 h1⟩

/-- One output entry of `formatRadarData`. -/
structure RadarEntry where
  subject : String
  A : ℚ
  fullMark : Nat
  count : Nat
  deriving DecidableEq, Repr

/-- The `formatRadarData` function: entries sorted descending by count, truncated to 6,
each normalized against the first (maximal) count of the truncated array
(`arr[0][1]`) and carrying its raw count. -/
def formatRadarData (stats : List (String × Nat)) : List RadarEntry :=
  let arr := (List.insertionSort countGE stats).take 6
  arr.map (fun p => ⟨p.1, (p.2 : ℚ) / ((arr.headD ("", 0)).2 : ℚ) * 100, 100, p.2⟩)

/-- The `calculateTagStats` function: genre counters rendered as radar data. -/
def calculateTagStats (subjectIds : List Nat)
    (detailMap : Nat → Option SubjectDetail) : List RadarEntry :=
  formatRadarData (calculateTagStatsMap subjectIds detailMap)

/-- The platform counters accumulated by `calculatePlatformStats`:
unenriched items and the platforms Unknown and empty string (JS falsy)
are skipped, PC is renamed to Windows. -/
def platformStatsMap (subjectIds : List Nat)
    (detailMap : Nat → Option SubjectDetail) : List (String × Nat) :=
  subjectIds.foldl (fun stats id =>
    match detailMap id with
    | none => stats
    | some detail =>
      if detail.platform = "" ∨ detail.platform = "Unknown" then stats
      else bumpStat stats (if detail.platform = "PC" then "Windows" else detail.platform)) []

/-- The `calculatePlatformStats` function: platform counters sorted descending by
count, truncated to the top 4. -/
def calculatePlatformStats (subjectIds : List Nat)
    (detailMap : Nat → Option SubjectDetail) : List (String × Nat) :=
  (List.insertionSort countGE (platformStatsMap subjectIds detailMap)).take 4

/-! ### Year filter (src/App.tsx)

`games2025` flattens the fetched pages, keeps collection entries whose
collection-type discriminator is 2 (collected/owned), and then keeps the
entries updated in the target year 2025 whose identity key is not in the
session-local soft-delete set. -/

/-- A user collection entry, restricted to the fields the aggregation
logic reads (rating, collection type, update timestamp, subject
identifier); presentation-only fields are omitted.  `updated_at` is an
ISO-8601 timestamp string. -/
structure BangumiCollectionItem where
  subject_id : Nat
  rate : Nat
  type : Nat
  updated_at : String
  deriving DecidableEq, Repr

/-- Numeric value of a decimal digit character. -/
def charDigit (c : Char) : Nat := c.toNat - 48

/-- The natural number denoted by a list of decimal digit characters. -/
def digitsToNat (cs : List Char) : Nat :=
  cs.foldl (fun acc c => acc * 10 + charDigit c) 0

/-- The calendar year of an ISO-8601 timestamp (its first four digits),
modelling `new Date(s).getFullYear()` on the API timestamps. -/
def updatedYear (s : String) : Nat :=
  digitsToNat (s.data.take 4)

/-- The soft-delete identity key of an entry:
`subject_id ++ "-" ++ updated_at`. -/
def itemKey (item : BangumiCollectionItem) : String :=
  toString item.subject_id ++ "-" ++ item.updated_at

/-- The `games2025` memo of App.tsx, over the loaded pages and the
session-local exclusion set. -/
def games2025 (pages : List (List BangumiCollectionItem))
    (deletedIds : List String) : List BangumiCollectionItem :=
  let allItems := pages.flatMap (fun page => page)
  let collectedGames := allItems.filter (fun item => item.type == 2)
  collectedGames.filter (fun item =>
    (updatedYear item.updated_at == 2025) && !(deletedIds.contains (itemKey item)))

/-! ### Summary statistics (src/components/SummaryCard.tsx) -/

/-- The rated subset of the displayed games (`g.rate > 0`). -/
def ratedGames (games : List BangumiCollectionItem) : List BangumiCollectionItem :=
  games.filter (fun g => decide (0 < g.rate))

/-- Descending order on entries by rating, the order produced by the JS
comparator (a, b) => b.rate - a.rate. -/
def rateGE (a b : BangumiCollectionItem) : Prop := b.rate ≤ a.rate

instance : DecidableRel rateGE := fun a b => inferInstanceAs (Decidable (b.rate ≤ a.rate))

instance : IsTotal BangumiCollectionItem rateGE := ⟨fun a b => Nat.le_total b.rate a.rate⟩

instance : IsTrans BangumiCollectionItem rateGE := ⟨fun _ _ _ h1 h2 => Nat.le_trans h2 h1⟩

/-- The top5/bottom3 memo: the rated games sorted descending by rating;
the top list is the first five; the bottom list is the last three
reversed (`sorted.slice(-3).reverse()`), and only produced when at least
eight rated games exist. -/
def top5bottom3 (rated : List BangumiCollectionItem) :
    List BangumiCollectionItem × List BangumiCollectionItem :=
  let sorted := List.insertionSort rateGE rated
  let top := sorted.take 5
  let bottom :=
    if 8 ≤ sorted.length then (sorted.drop (sorted.length - 3)).reverse else []
  (top, bottom)

/-- The average score over the rated games; `none` models the textual
placeholder shown when no rated game exists (the division is never
evaluated in that case).  The `toFixed(1)` display rounding is not
modelled. -/
def averageScore (games : List BangumiCollectionItem) : Option ℚ :=
  let rated := ratedGames games
  let totalScore : Nat := (rated.map (fun g => g.rate)).sum
  if 0 < rated.length then some ((totalScore : ℚ) / (rated.length : ℚ)) else none

/-- The maximum (`Math.max(...counts)`) over the raw bucket counts of the radar data.
The component only evaluates this with at least three buckets, so the
empty-list behaviour of the JS spread (negative infinity) is not
modelled. -/
def maxRawCount (raw : List RadarEntry) : Nat :=
  (raw.map (fun d => d.count)).foldr max 0

/-- The sum of all raw bucket counts. -/
def sumCounts (raw : List RadarEntry) : Nat :=
  (raw.map (fun d => d.count)).sum

/-- The dominant-distribution test: `othersSum = sum - max` and
`isDominant = max >= othersSum`. -/
def isDominant (raw : List RadarEntry) : Bool :=
  decide (sumCounts raw - maxRawCount raw ≤ maxRawCount raw)

/-- One entry of the processed radar data: the display value `A` is a
real number; `originalCount` is attached only on the rescaling path. -/
structure ProcessedRadarEntry where
  subject : String
  A : ℝ
  fullMark : Nat
  count : Nat
  originalCount : Option Nat

/-- The `processedRadarData` memo: the raw data is passed through
unchanged when the fallback radar is in use or when the maximum raw
count is zero; otherwise every bucket is rescaled, by the square-root
transform against the maximum when the distribution is dominant and
linearly against the maximum otherwise. -/
noncomputable def processedRadarData (isUsingFallback : Bool)
    (raw : List RadarEntry) : List ProcessedRadarEntry :=
  if isUsingFallback then
    raw.map (fun d => ⟨d.subject, (d.A : ℝ), d.fullMark, d.count, none⟩)
  else if maxRawCount raw = 0 then
    raw.map (fun d => ⟨d.subject, (d.A : ℝ), d.fullMark, d.count, none⟩)
  else
    raw.map (fun d =>
      let val : Nat := d.count
      let normalized : ℝ :=
        if isDominant raw then (Real.sqrt (val : ℝ) / Real.sqrt ((maxRawCount raw : ℝ))) * 150
        else ((val : ℝ) / ((maxRawCount raw : ℝ))) * 100
      ⟨d.subject, normalized, d.fullMark, val, some val⟩)

/-! ### Helper notions and lemmas -/

/-- Reading a counter record: `stats[g] || 0`. -/
def lookupStat (g : String) (stats : List (String × Nat)) : Nat :=
  (stats.lookup g).getD 0

/-- The genre bucket an identifier contributes to (if any): the
uppercased first genre-matching tag of its enrichment record. -/
def genreKey (detailMap : Nat → Option SubjectDetail) (id : Nat) : Option String :=
  (detailMap id).bind (fun detail => firstGenreTag detail.tags)

/-- The platform bucket an identifier contributes to (if any):
its platform unless unenriched, empty or Unknown, with PC renamed. -/
def platformKey (detailMap : Nat → Option SubjectDetail) (id : Nat) : Option String :=
  match detailMap id with
  | none => none
  | some detail =>
      if detail.platform = "" ∨ detail.platform = "Unknown" then none
      else some (if detail.platform = "PC" then "Windows" else detail.platform)

lemma lookup_cons_if {β : Type} (k a : String) (b : β) (t : List (String × β)) :
    List.lookup k ((a, b) :: t) = if k = a then some b else List.lookup k t := by
  rw [List.lookup_cons]
  by_cases h : k = a
  · subst h
    simp
  · have hb : (k == a) = false := by simpa using h
    rw [hb, if_neg h]

lemma lookup_map_bump (t : List (String × Nat)) (k g : String) :
    List.lookup g (t.map (fun p => if p.1 == k then (k, p.2 + 1) else p)) =
      if g = k then (List.lookup k t).map (fun n => n + 1) else List.lookup g t := by
  induction t with
  | nil => by_cases hgk : g = k <;> simp [hgk]
  | cons a t ih =>
    obtain ⟨a1, a2⟩ := a
    rw [List.map_cons]
    by_cases hak : a1 = k
    · subst hak
      by_cases hgk : g = a1
      · subst hgk
        simp [lookup_cons_if, ih]
      · have hb : ((a1 == a1) = true) := by simp
        rw [if_pos hb, lookup_cons_if, if_neg hgk, ih, if_neg hgk, if_neg hgk,
          lookup_cons_if, if_neg hgk]
    · have hka : ¬ k = a1 := fun h => hak h.symm
      by_cases hga : g = a1
      · subst hga
        simp [lookup_cons_if, ih, hak, hka]
      · rw [if_neg (show ¬ ((a1 == k) = true) from by simpa using hak), lookup_cons_if,
          if_neg hga, ih, lookup_cons_if, if_neg hka, lookup_cons_if, if_neg hga]

lemma lookup_none_of_any_false (t : List (String × Nat)) (k : String)
    (h : t.any (fun p => p.1 == k) = false) : List.lookup k t = none := by
  induction t with
  | nil => rfl
  | cons a t ih =>
    obtain ⟨a1, a2⟩ := a
    simp only [List.any_cons, Bool.or_eq_false_iff] at h
    rw [lookup_cons_if, if_neg (fun hk => by simp [hk] at h), ih h.2]

lemma lookup_isSome_of_any_true (t : List (String × Nat)) (k : String)
    (h : t.any (fun p => p.1 == k) = true) : (List.lookup k t).isSome := by
  induction t with
  | nil => simp at h
  | cons a t ih =>
    obtain ⟨a1, a2⟩ := a
    simp only [List.any_cons, Bool.or_eq_true] at h
    by_cases hk : k = a1
    · rw [lookup_cons_if, if_pos hk]
      rfl
    · rcases h with h | h
      · exact absurd (by simpa using h : a1 = k) (fun he => hk he.symm)
      · rw [lookup_cons_if, if_neg hk]
        exact ih h

lemma lookupStat_bumpStat (stats : List (String × Nat)) (k g : String) :
    lookupStat g (bumpStat stats k) =
      if g = k then lookupStat g stats + 1 else lookupStat g stats := by
  unfold bumpStat
  cases hany : stats.any (fun p => p.1 == k) with
  | true =>
    rw [if_pos rfl]
    unfold lookupStat
    rw [lookup_map_bump]
    by_cases hgk : g = k
    · subst hgk
      obtain ⟨v, hv⟩ := Option.isSome_iff_exists.1 (lookup_isSome_of_any_true stats g hany)
      simp [hv]
    · simp [hgk]
  | false =>
    rw [if_neg (by simp [hany])]
    unfold lookupStat
    rw [List.lookup_append]
    by_cases hgk : g = k
    · subst hgk
      rw [lookup_none_of_any_false stats g hany, lookup_cons_if, if_pos rfl, if_pos rfl]
      rfl
    · have hsingleton : List.lookup g [(k, 1)] = none := by
        rw [lookup_cons_if, if_neg hgk]
        rfl
      rw [hsingleton, if_neg hgk]
      cases List.lookup g stats <;> rfl

lemma lookupStat_bumpFold (key : Nat → Option String) :
    ∀ (ids : List Nat) (stats0 : List (String × Nat)) (g : String),
      lookupStat g (ids.foldl (fun stats id =>
          match key id with
          | some k => bumpStat stats k
          | none => stats) stats0)
        = lookupStat g stats0 + (ids.filter (fun id => key id == some g)).length := by
  intro ids
  induction ids with
  | nil => intro stats0 g; simp
  | cons id rest ih =>
    intro stats0 g
    rw [List.foldl_cons, ih]
    cases hk : key id with
    | none => simp [List.filter_cons, hk]
    | some k =>
      rw [lookupStat_bumpStat]
      by_cases hgk : g = k
      · subst hgk
        have hcond : (key id == some g) = true := by simp [hk]
        rw [if_pos rfl, List.filter_cons, hcond]
        simp
        omega
      · have hcond : (key id == some g) = false := by
          simp [hk]
          exact fun h => hgk h.symm
        rw [if_neg hgk, List.filter_cons, hcond]
        simp

/-- A pairwise-sorted list dominates its own tail split. -/
lemma pairwise_take_drop {α : Type} {R : α → α → Prop} {l : List α}
    (h : List.Pairwise R l) (n : Nat) :
    ∀ a ∈ l.take n, ∀ b ∈ l.drop n, R a b := by
  have hsplit := List.take_append_drop n l
  rw [← hsplit] at h
  exact (List.pairwise_append.1 h).2.2

/-- In a list sorted descending by count, the head carries the maximal
count. -/
lemma sorted_headD_max {l : List (String × Nat)}
    (h : List.Pairwise (fun a b : String × Nat => b.2 ≤ a.2) l) :
    ∀ p ∈ l, p.2 ≤ (l.headD ("", 0)).2 := by
  cases l with
  | nil => intro p hp; simp at hp
  | cons a t =>
    intro p hp
    rcases List.mem_cons.1 hp with rfl | hp
    · simp
    · exact (List.pairwise_cons.1 h).1 p hp

/-- The maximum of a list of naturals is bounded by its sum. -/
lemma foldr_max_le_sum (l : List Nat) : l.foldr max 0 ≤ l.sum := by
  induction l with
  | nil => simp
  | cons a t ih => simp only [List.foldr_cons, List.sum_cons]; omega

/-- The maximum of a nonempty list of naturals is attained. -/
lemma foldr_max_mem (l : List Nat) (h : l ≠ []) : l.foldr max 0 ∈ l := by
  induction l with
  | nil => exact absurd rfl h
  | cons a t ih =>
    cases t with
    | nil => simp
    | cons b u =>
      rcases Nat.le_total ((b :: u).foldr max 0) a with hle | hle
      · simp only [List.foldr_cons] at *
        rw [Nat.max_eq_left hle]
        exact List.mem_cons_self _ _
      · simp only [List.foldr_cons] at *
        rw [Nat.max_eq_right hle]
        exact List.mem_cons_of_mem _ (ih (by simp))

/-- Characterization of the record built by assigning each mapped result
under its identifier key. -/
lemma foldAssign_eq (f : Nat → SubjectDetail) :
    ∀ (ids : List Nat) (m0 : Nat → Option SubjectDetail) (k : Nat),
      ((ids.map (fun id => (id, f id))).foldl
          (fun m r => fun k2 => if k2 = r.1 then some r.2 else m k2) m0) k
        = if k ∈ ids then some (f k) else m0 k := by
  intro ids
  induction ids with
  | nil => intro m0 k; simp
  | cons id rest ih =>
    intro m0 k
    rw [List.map_cons, List.foldl_cons, ih]
    by_cases hkr : k ∈ rest
    · simp [hkr]
    · by_cases hki : k = id
      · subst hki
        simp [hkr]
      · simp [hkr, hki, List.mem_cons]

/-- The detail map reads as the per-identifier fetch result on requested
identifiers and is undefined elsewhere. -/
lemma useSubjectsDetailsMap_reads (subjectIds : List Nat)
    (cache : Nat → Option CachedValue) (net : Nat → FetchOutcome) (k : Nat) :
    useSubjectsDetailsMap subjectIds cache net k =
      if k ∈ subjectIds then some (fetchSubjectDetails (cache k) (net k)).detail
      else none :=
  foldAssign_eq (fun id => (fetchSubjectDetails (cache id) (net id)).detail) subjectIds _ k

/-! ### Concrete example data -/

/-- Ten collected games rated 1 to 10. -/
def tenGamesExample : List BangumiCollectionItem :=
  (List.range 10).map (fun i => ⟨i, i + 1, 2, "2025-01-01T00:00:00+08:00"⟩)

/-- Six collected games rated 1 to 6. -/
def sixGamesExample : List BangumiCollectionItem :=
  (List.range 6).map (fun i => ⟨i, i + 1, 2, "2025-01-01T00:00:00+08:00"⟩)

/-- Three collected games dated 2025-03-01, 2024-12-31 and 2025-06-15. -/
def yearFilterExample : List BangumiCollectionItem :=
  [⟨1, 5, 2, "2025-03-01T00:00:00+08:00"⟩,
   ⟨2, 5, 2, "2024-12-31T00:00:00+08:00"⟩,
   ⟨3, 5, 2, "2025-06-15T00:00:00+08:00"⟩]

/-- Radar buckets with counts 4, 1, 1 (a dominant distribution). -/
def radarDominantExample : List RadarEntry :=
  [⟨"RPG", 100, 100, 4⟩, ⟨"ADV", 25, 100, 1⟩, ⟨"SIM", 25, 100, 1⟩]

/-- Radar buckets with counts 5, 4, 3 (not dominant). -/
def radarLinearExample : List RadarEntry :=
  [⟨"RPG", 100, 100, 5⟩, ⟨"ADV", 80, 100, 4⟩, ⟨"SIM", 60, 100, 3⟩]

/-- Radar buckets whose raw counts are all zero. -/
def radarZeroExample : List RadarEntry :=
  [⟨"RPG", 5, 100, 0⟩, ⟨"ADV", 4, 100, 0⟩, ⟨"SIM", 3, 100, 0⟩]

/-! ### Claim theorems -/

/-- C1: over any list of games, the rated items (rating > 0) are sorted
descending by rating; the top list is exactly the first 5 of that sorted
order (all of them if fewer than 5); the bottom list is empty when fewer
than 8 rated items exist and otherwise is exactly the last 3 of the
sorted order reversed, so the lowest-rated item appears first; every top
item outranks every item outside the top list, and the bottom list is
ordered ascending. -/
theorem top_bottom_ranking_spec (games : List BangumiCollectionItem) :
    (List.insertionSort rateGE (ratedGames games)).Perm (ratedGames games)
    ∧ List.Pairwise (fun a b => b.rate ≤ a.rate)
        (List.insertionSort rateGE (ratedGames games))
    ∧ (top5bottom3 (ratedGames games)).1 =
        (List.insertionSort rateGE (ratedGames games)).take 5
    ∧ (∀ a ∈ (top5bottom3 (ratedGames games)).1,
        ∀ b ∈ (List.insertionSort rateGE (ratedGames games)).drop 5, b.rate ≤ a.rate)
    ∧ (top5bottom3 (ratedGames games)).2 =
        (if 8 ≤ (ratedGames games).length then
          ((List.insertionSort rateGE (ratedGames games)).drop
            ((ratedGames games).length - 3)).reverse
        else [])
    ∧ List.Pairwise (fun a b => a.rate ≤ b.rate) (top5bottom3 (ratedGames games)).2 := by
  have hperm := List.perm_insertionSort rateGE (ratedGames games)
  have hlen := hperm.length_eq
  have hsorted : List.Pairwise (fun a b => b.rate ≤ a.rate)
      (List.insertionSort rateGE (ratedGames games)) :=
    List.sorted_insertionSort rateGE (ratedGames games)
  have hbottom : (top5bottom3 (ratedGames games)).2 =
      (if 8 ≤ (ratedGames games).length then
        ((List.insertionSort rateGE (ratedGames games)).drop
          ((ratedGames games).length - 3)).reverse
      else []) := by
    simp only [top5bottom3, hlen]
  refine ⟨hperm, hsorted, rfl, ?_, hbottom, ?_⟩
  · intro a ha b hb
    exact pairwise_take_drop hsorted 5 a ha b hb
  · rw [hbottom]
    by_cases h8 : 8 ≤ (ratedGames games).length
    · rw [if_pos h8]
      exact List.pairwise_reverse.2
        (List.Pairwise.sublist (List.drop_sublist _ _) hsorted)
    · rw [if_neg h8]
      exact List.Pairwise.nil

theorem top_bottom_ranking_spec_witness :
    (top5bottom3 (ratedGames sixGamesExample)).2 = []
    ∧ (top5bottom3 (ratedGames tenGamesExample)).1 =
        (List.insertionSort rateGE (ratedGames tenGamesExample)).take 5
    ∧ (top5bottom3 (ratedGames tenGamesExample)).1.map (fun g => g.rate) = [10, 9, 8, 7, 6]
    ∧ (top5bottom3 (ratedGames tenGamesExample)).2.map (fun g => g.rate) = [1, 2, 3] := by
  refine ⟨?_, (top_bottom_ranking_spec tenGamesExample).2.2.1, by decide, by decide⟩
  rw [(top_bottom_ranking_spec sixGamesExample).2.2.2.2.1]
  decide

/-- C3 (counterexample): with a server-reported total of 0, the loader
still issues its one initial page request, while ceil(0 / 30) = 0; the
request count therefore differs from ceil(total / 30) at total = 0. -/
theorem pagination_zero_total_counterexample :
    requestCount 0 = 1 ∧ ceilPages 0 = 0 ∧ requestCount 0 ≠ ceilPages 0 := by
  decide

/-- C3 (amended): pagination requests pages at monotonically increasing
offsets pageIndex * 30, stops exactly when the cumulative offset reaches
or exceeds the total, issues max 1 (ceil(total / 30)) page requests (the
initial page is always requested, so for total at least 1 this equals
ceil(total / 30)), and, with each page carrying min 30 remaining items,
the accumulated item count equals the server-reported total. -/
theorem pagination_spec (total : Nat) :
    requestOffsets total = (List.range (max 1 (ceilPages total))).map (fun i => i * 30)
    ∧ List.Pairwise (fun a b => a < b) (requestOffsets total)
    ∧ requestCount total = max 1 (ceilPages total)
    ∧ (1 ≤ total → requestCount total = ceilPages total)
    ∧ accumulatedItems total = total := by
  refine ⟨requestOffsets_eq total, ?_, ?_, ?_, ?_⟩
  · rw [requestOffsets_eq]
    exact List.Pairwise.map _ (fun a b h => by omega) (List.pairwise_lt_range _)
  · unfold requestCount
    rw [requestOffsets_eq, List.length_map, List.length_range]
  · intro h1
    have hpos : 1 ≤ ceilPages total := by
      have := (mul30_lt_iff_lt_ceilPages total 0).1 (by omega)
      omega
    unfold requestCount
    rw [requestOffsets_eq, List.length_map, List.length_range]
    omega
  · unfold accumulatedItems
    rw [requestOffsets_eq, List.map_map]
    have hbound : total ≤ 30 * (max 1 (ceilPages total)) := by
      have hdm := Nat.div_add_mod (total + 29) 30
      have hlt : (total + 29) % 30 < 30 := Nat.mod_lt _ (by norm_num)
      unfold ceilPages
      omega
    have hsum := sum_pageItems (max 1 (ceilPages total)) total hbound
    have hmapeq : (List.range (max 1 (ceilPages total))).map
        ((pageItems total) ∘ fun i => i * 30) =
        (List.range (max 1 (ceilPages total))).map (fun i => min 30 (total - i * 30)) := by
      apply List.map_congr_left
      intro i _
      simp [pageItems, Function.comp]
    rw [hmapeq, hsum]

theorem pagination_spec_witness :
    requestCount 95 = ceilPages 95 ∧ accumulatedItems 95 = 95 :=
  ⟨(pagination_spec 95).2.2.2.1 (by norm_num), (pagination_spec 95).2.2.2.2⟩

/-- C7 (counterexample): an entry dated in 2025 and not excluded, but
whose collection-type discriminator is 1 (wish-listed) rather than 2
(collected), is dropped by the filter, although the claim retains every
non-excluded 2025-dated item. -/
theorem year_filter_type_counterexample :
    games2025 [[⟨1, 5, 1, "2025-03-01T00:00:00+08:00"⟩]] [] ≠
        [⟨1, 5, 1, "2025-03-01T00:00:00+08:00"⟩]
    ∧ updatedYear "2025-03-01T00:00:00+08:00" = 2025
    ∧ games2025 [[⟨1, 5, 1, "2025-03-01T00:00:00+08:00"⟩]] [] = [] := by
  decide

/-- C7 (amended): the year filter retains exactly those collection items
whose collection-type discriminator is 2 (collected), whose last-updated
timestamp falls within the target year 2025, and whose identity pair
(subject identifier and last-updated timestamp) is not in the exclusion
set; for the three 2025-03-01 / 2024-12-31 / 2025-06-15 collected items
with none excluded, exactly the two 2025 items remain. -/
theorem year_filter_spec (pages : List (List BangumiCollectionItem))
    (deletedIds : List String) :
    games2025 pages deletedIds =
      (pages.flatMap (fun page => page)).filter (fun item =>
        (item.type == 2) && ((updatedYear item.updated_at == 2025) &&
          !(deletedIds.contains (itemKey item))))
    ∧ games2025 [yearFilterExample] [] =
        [⟨1, 5, 2, "2025-03-01T00:00:00+08:00"⟩, ⟨3, 5, 2, "2025-06-15T00:00:00+08:00"⟩] := by
  constructor
  · unfold games2025
    rw [List.filter_filter]
    apply List.filter_congr
    intro a _
    rw [Bool.and_comm]
  · decide

/-- C9: the aggregation edge cases are total and well-defined: with zero
rated items the average score is the neutral placeholder rather than a
division by zero; with fewer than 8 rated items the bottom list is
empty; with zero requested or zero enriched items the radar data is the
empty list; and with a maximum raw bucket count of zero the display
rescaling leaves the radar values unchanged. -/
theorem aggregation_edge_cases :
    (∀ games : List BangumiCollectionItem,
        ratedGames games = [] → averageScore games = none)
    ∧ (∀ games : List BangumiCollectionItem,
        (ratedGames games).length < 8 → (top5bottom3 (ratedGames games)).2 = [])
    ∧ (∀ detailMap : Nat → Option SubjectDetail, calculateTagStats [] detailMap = [])
    ∧ (∀ subjectIds : List Nat, calculateTagStats subjectIds (fun _ => none) = [])
    ∧ (∀ raw : List RadarEntry, maxRawCount raw = 0 →
        (processedRadarData false raw).map (fun e => e.A) =
          raw.map (fun d => ((d.A : ℚ) : ℝ))) := by
  refine ⟨?_, ?_, fun _ => rfl, ?_, ?_⟩
  · intro games h
    simp [averageScore, h]
  · intro games h
    simp only [top5bottom3, (List.perm_insertionSort rateGE (ratedGames games)).length_eq]
    rw [if_neg (by omega)]
  · intro subjectIds
    have hfold : ∀ (l : List Nat) (s : List (String × Nat)),
        l.foldl (fun stats _ => stats) s = s := by
      intro l
      induction l with
      | nil => intro s; rfl
      | cons x xs ih => intro s; exact ih s
    have hmap : calculateTagStatsMap subjectIds (fun _ => none) = [] :=
      hfold subjectIds []
    rw [calculateTagStats, hmap]
    rfl
  · intro raw h0
    rw [processedRadarData, if_neg (by simp), if_pos h0, List.map_map]
    rfl

theorem aggregation_edge_cases_witness :
    averageScore [] = none
    ∧ (top5bottom3 (ratedGames sixGamesExample)).2 = []
    ∧ calculateTagStats [17] (fun _ => none) = []
    ∧ (processedRadarData false radarZeroExample).map (fun e => e.A) =
        radarZeroExample.map (fun d => ((d.A : ℚ) : ℝ)) :=
  ⟨aggregation_edge_cases.1 [] rfl,
   aggregation_edge_cases.2.1 sixGamesExample (by decide),
   aggregation_edge_cases.2.2.2.1 [17],
   aggregation_edge_cases.2.2.2.2 radarZeroExample (by decide)⟩

/-- C2: when the detail fetch for an identifier returns a non-success
status or throws and no valid cache entry short-circuits it, the fetch
returns the default SubjectDetail (empty tags, platform Unknown, empty
developer and scenarist lists) rather than an error, and the result the
batch records for an identifier depends only on the cache entry and
network outcome of that same identifier, so a failure of one never
affects the others. -/
theorem detail_failure_defaults :
    (∀ (cache : Option CachedValue) (net : FetchOutcome),
        (net = FetchOutcome.httpError ∨ net = FetchOutcome.exn) →
        (∀ d, cache ≠ some (CachedValue.wellFormed d)) →
        (fetchSubjectDetails cache net).detail = defaultDetail
          ∧ (fetchSubjectDetails cache net).networkCalled = true)
    ∧ defaultDetail.tags = []
    ∧ defaultDetail.platform = "Unknown"
    ∧ defaultDetail.infobox.developers = []
    ∧ defaultDetail.infobox.scenarists = []
    ∧ (∀ (subjectIds : List Nat) (cacheA cacheB : Nat → Option CachedValue)
          (netA netB : Nat → FetchOutcome) (k : Nat),
        cacheA k = cacheB k → netA k = netB k →
        useSubjectsDetailsMap subjectIds cacheA netA k =
          useSubjectsDetailsMap subjectIds cacheB netB k) := by
  refine ⟨?_, rfl, rfl, rfl, rfl, ?_⟩
  · rintro cache net (rfl | rfl) hcache <;>
      (cases cache with
       | none => exact ⟨rfl, rfl⟩
       | some cv =>
         cases cv with
         | wellFormed d => exact absurd rfl (hcache d)
         | malformed => exact ⟨rfl, rfl⟩
         | unparseable => exact ⟨rfl, rfl⟩)
  · intro subjectIds cacheA cacheB netA netB k hc hn
    rw [useSubjectsDetailsMap_reads, useSubjectsDetailsMap_reads, hc, hn]

theorem detail_failure_defaults_witness :
    ((fetchSubjectDetails none FetchOutcome.httpError).detail = defaultDetail
      ∧ (fetchSubjectDetails none FetchOutcome.httpError).networkCalled = true)
    ∧ ((fetchSubjectDetails (some CachedValue.malformed) FetchOutcome.exn).detail = defaultDetail
      ∧ (fetchSubjectDetails (some CachedValue.malformed) FetchOutcome.exn).networkCalled = true)
    ∧ useSubjectsDetailsMap [7, 8] (fun _ => none)
        (fun i => if i = 8 then FetchOutcome.exn else FetchOutcome.httpError) 7 =
      useSubjectsDetailsMap [7, 8] (fun _ => none) (fun _ => FetchOutcome.httpError) 7 :=
  ⟨detail_failure_defaults.1 none FetchOutcome.httpError (Or.inl rfl)
      (fun d h => Option.noConfusion h),
   detail_failure_defaults.1 (some CachedValue.malformed) FetchOutcome.exn (Or.inr rfl)
      (fun d h => CachedValue.noConfusion (Option.some.inj h)),
   detail_failure_defaults.2.2.2.2.2 [7, 8] (fun _ => none) (fun _ => none)
      (fun i => if i = 8 then FetchOutcome.exn else FetchOutcome.httpError)
      (fun _ => FetchOutcome.httpError) 7 rfl (by decide)⟩

/-- C6: a well-formed cached entry is returned as is with no network
call; the batch detail map reads as the per-identifier fetch result on
exactly the requested identifiers, so two requests over identifier lists
with the same members (in particular a list and its deduplication)
produce the same enrichment map. -/
theorem detail_cache_idempotent :
    (∀ (d : SubjectDetail) (net : FetchOutcome),
        fetchSubjectDetails (some (CachedValue.wellFormed d)) net =
          ⟨d, false, some (CachedValue.wellFormed d)⟩)
    ∧ (∀ (subjectIds : List Nat) (cache : Nat → Option CachedValue)
          (net : Nat → FetchOutcome) (k : Nat),
        useSubjectsDetailsMap subjectIds cache net k =
          if k ∈ subjectIds then some (fetchSubjectDetails (cache k) (net k)).detail
          else none)
    ∧ (∀ (idsA idsB : List Nat) (cache : Nat → Option CachedValue)
          (net : Nat → FetchOutcome),
        (∀ x, x ∈ idsA ↔ x ∈ idsB) →
        ∀ k, useSubjectsDetailsMap idsA cache net k =
          useSubjectsDetailsMap idsB cache net k) := by
  refine ⟨fun d net => rfl, useSubjectsDetailsMap_reads, ?_⟩
  intro idsA idsB cache net hmem k
  rw [useSubjectsDetailsMap_reads, useSubjectsDetailsMap_reads]
  by_cases h : k ∈ idsA
  · rw [if_pos h, if_pos ((hmem k).1 h)]
  · rw [if_neg h, if_neg (fun hb => h ((hmem k).2 hb))]

theorem detail_cache_idempotent_witness :
    fetchSubjectDetails (some (CachedValue.wellFormed defaultDetail)) FetchOutcome.exn =
      ⟨defaultDetail, false, some (CachedValue.wellFormed defaultDetail)⟩
    ∧ (∀ k, useSubjectsDetailsMap [3, 3, 5] (fun _ => none) (fun _ => FetchOutcome.exn) k =
        useSubjectsDetailsMap [5, 3] (fun _ => none) (fun _ => FetchOutcome.exn) k) :=
  ⟨detail_cache_idempotent.1 defaultDetail FetchOutcome.exn,
   detail_cache_idempotent.2.2 [3, 3, 5] [5, 3] (fun _ => none) (fun _ => FetchOutcome.exn)
     (fun x => by simp [List.mem_cons]; tauto)⟩

/-- C10 (counterexample): a fetch failure with an unparseable cached
entry leaves the cache empty, not unchanged — the corrupt entry was
purged during the cache check — so the cache state is not always
unchanged on error. -/
theorem cache_unchanged_counterexample :
    (fetchSubjectDetails (some CachedValue.unparseable) FetchOutcome.httpError).cacheAfter = none
    ∧ some CachedValue.unparseable ≠ (none : Option CachedValue)
    ∧ (fetchSubjectDetails (some CachedValue.unparseable) FetchOutcome.httpError).detail =
        defaultDetail := by
  refine ⟨rfl, fun h => Option.noConfusion h, rfl⟩

/-- C10 (amended): on a failed detail fetch nothing is written to the
cache — the default detail is returned but never persisted, and the only
possible mutation is the purge of a pre-existing corrupt entry during
the cache check; the cache gains a well-formed entry only from a
successful fetch, and after a failure a later request for the same
identifier consults the network again instead of returning a cached
default. -/
theorem cache_no_write_on_failure :
    (∀ (cache : Option CachedValue) (net : FetchOutcome),
        (net = FetchOutcome.httpError ∨ net = FetchOutcome.exn) →
        (fetchSubjectDetails cache net).cacheAfter =
          (if cache = some CachedValue.unparseable then none else cache))
    ∧ (∀ (cache : Option CachedValue) (net : FetchOutcome) (d : SubjectDetail),
        (net = FetchOutcome.httpError ∨ net = FetchOutcome.exn) →
        (fetchSubjectDetails cache net).cacheAfter = some (CachedValue.wellFormed d) →
        cache = some (CachedValue.wellFormed d))
    ∧ (∀ (cache : Option CachedValue) (net net2 : FetchOutcome),
        (net = FetchOutcome.httpError ∨ net = FetchOutcome.exn) →
        (∀ d, cache ≠ some (CachedValue.wellFormed d)) →
        (fetchSubjectDetails ((fetchSubjectDetails cache net).cacheAfter) net2).networkCalled
          = true)
    ∧ (∀ (cache : Option CachedValue) (net : FetchOutcome) (d : SubjectDetail),
        (fetchSubjectDetails cache net).cacheAfter = some (CachedValue.wellFormed d) →
        cache = some (CachedValue.wellFormed d)
          ∨ ∃ data, net = FetchOutcome.ok data ∧ d = processData data) := by
  refine ⟨?_, ?_, ?_, ?_⟩
  · rintro cache net (rfl | rfl) <;>
      (cases cache with
       | none => rfl
       | some cv => cases cv <;> rfl)
  · rintro cache net d (rfl | rfl) h <;>
      (cases cache with
       | none => exact absurd h (fun h2 => Option.noConfusion h2)
       | some cv =>
         cases cv with
         | wellFormed d2 => exact h
         | malformed => exact absurd (Option.some.inj h) (fun h2 => CachedValue.noConfusion h2)
         | unparseable => exact absurd h (fun h2 => Option.noConfusion h2))
  · rintro cache net net2 (rfl | rfl) hcache <;>
      (cases cache with
       | none => cases net2 <;> rfl
       | some cv =>
         cases cv with
         | wellFormed d => exact absurd rfl (hcache d)
         | malformed => cases net2 <;> rfl
         | unparseable => cases net2 <;> rfl)
  · intro cache net d h
    cases cache with
    | none =>
      cases net with
      | ok data =>
        refine Or.inr ⟨data, rfl, ?_⟩
        have h2 : some (CachedValue.wellFormed (processData data)) =
            some (CachedValue.wellFormed d) := h
        exact (CachedValue.wellFormed.inj (Option.some.inj h2)).symm
      | httpError => exact absurd h (fun h2 => Option.noConfusion h2)
      | exn => exact absurd h (fun h2 => Option.noConfusion h2)
    | some cv =>
      cases cv with
      | wellFormed d2 => exact Or.inl h
      | malformed =>
        cases net with
        | ok data =>
          exact Or.inr ⟨data, rfl, (CachedValue.wellFormed.inj (Option.some.inj h)).symm⟩
        | httpError =>
          exact absurd (Option.some.inj h) (fun h2 => CachedValue.noConfusion h2)
        | exn =>
          exact absurd (Option.some.inj h) (fun h2 => CachedValue.noConfusion h2)
      | unparseable =>
        cases net with
        | ok data =>
          exact Or.inr ⟨data, rfl, (CachedValue.wellFormed.inj (Option.some.inj h)).symm⟩
        | httpError => exact absurd h (fun h2 => Option.noConfusion h2)
        | exn => exact absurd h (fun h2 => Option.noConfusion h2)

theorem cache_no_write_on_failure_witness :
    (fetchSubjectDetails none FetchOutcome.httpError).cacheAfter =
      (if (none : Option CachedValue) = some CachedValue.unparseable then none else none)
    ∧ (fetchSubjectDetails
        ((fetchSubjectDetails none FetchOutcome.httpError).cacheAfter)
        FetchOutcome.httpError).networkCalled = true :=
  ⟨cache_no_write_on_failure.1 none FetchOutcome.httpError (Or.inl rfl),
   cache_no_write_on_failure.2.2.1 none FetchOutcome.httpError FetchOutcome.httpError
     (Or.inl rfl) (fun _ h => Option.noConfusion h)⟩

/-- C4 (amended): for every non-empty radar bucket list, the
distribution is classified dominant exactly when the maximum raw count
is at least the sum of the other counts; provided the maximum raw count
is positive, every display value follows the square-root formula
sqrt(count)/sqrt(max) * 150 in the dominant case and count/max * 100
otherwise; when the maximum raw count is zero the data is passed through
unscaled. -/
theorem radar_rescaling_spec (raw : List RadarEntry) (hne : raw ≠ []) :
    (isDominant raw = true ↔ sumCounts raw - maxRawCount raw ≤ maxRawCount raw)
    ∧ maxRawCount raw ≤ sumCounts raw
    ∧ maxRawCount raw ∈ raw.map (fun d => d.count)
    ∧ (maxRawCount raw ≠ 0 →
        processedRadarData false raw = raw.map (fun d =>
          ⟨d.subject,
            (if isDominant raw
             then (Real.sqrt ((d.count : ℝ)) / Real.sqrt ((maxRawCount raw : ℝ))) * 150
             else ((d.count : ℝ) / ((maxRawCount raw : ℝ))) * 100),
            d.fullMark, d.count, some d.count⟩))
    ∧ (maxRawCount raw = 0 →
        processedRadarData false raw = raw.map (fun d =>
          ⟨d.subject, (d.A : ℝ), d.fullMark, d.count, none⟩)) := by
  refine ⟨by simp [isDominant], foldr_max_le_sum _, ?_, ?_, ?_⟩
  · exact foldr_max_mem _ (by simpa using hne)
  · intro h0
    rw [processedRadarData, if_neg (by simp), if_neg h0]
  · intro h0
    rw [processedRadarData, if_neg (by simp), if_pos h0]

/-- C4 (counterexample): with non-empty buckets whose raw counts are all
zero, the distribution is classified as dominant (0 is at least the sum
of the others) yet the display values are the unchanged input values,
not the square-root formula (which evaluates to 0 here), so the claim
fails when the maximum raw count is zero. -/
theorem radar_rescaling_counterexample :
    isDominant radarZeroExample = true
    ∧ (processedRadarData false radarZeroExample).map (fun e => e.A) = [(5 : ℝ), 4, 3]
    ∧ (Real.sqrt ((0 : ℝ)) / Real.sqrt ((0 : ℝ))) * 150 = 0
    ∧ ((5 : ℝ) ≠ (Real.sqrt ((0 : ℝ)) / Real.sqrt ((0 : ℝ))) * 150) := by
  have hmax : maxRawCount radarZeroExample = 0 := rfl
  have hsqrt : (Real.sqrt ((0 : ℝ)) / Real.sqrt ((0 : ℝ))) * 150 = 0 := by
    rw [Real.sqrt_zero, div_zero, zero_mul]
  refine ⟨by decide, ?_, hsqrt, by rw [hsqrt]; norm_num⟩
  rw [processedRadarData, if_neg (by simp), if_pos hmax]
  simp [radarZeroExample]

theorem radar_rescaling_spec_witness :
    (processedRadarData false radarDominantExample = radarDominantExample.map (fun d =>
        ⟨d.subject,
          (if isDominant radarDominantExample
           then (Real.sqrt ((d.count : ℝ)) / Real.sqrt ((maxRawCount radarDominantExample : ℝ))) * 150
           else ((d.count : ℝ) / ((maxRawCount radarDominantExample : ℝ))) * 100),
          d.fullMark, d.count, some d.count⟩))
    ∧ (processedRadarData false radarLinearExample = radarLinearExample.map (fun d =>
        ⟨d.subject,
          (if isDominant radarLinearExample
           then (Real.sqrt ((d.count : ℝ)) / Real.sqrt ((maxRawCount radarLinearExample : ℝ))) * 150
           else ((d.count : ℝ) / ((maxRawCount radarLinearExample : ℝ))) * 100),
          d.fullMark, d.count, some d.count⟩))
    ∧ isDominant radarDominantExample = true
    ∧ isDominant radarLinearExample = false
    ∧ (processedRadarData false radarZeroExample = radarZeroExample.map (fun d =>
        ⟨d.subject, (d.A : ℝ), d.fullMark, d.count, none⟩)) :=
  ⟨(radar_rescaling_spec radarDominantExample (by decide)).2.2.2.1 (by decide),
   (radar_rescaling_spec radarLinearExample (by decide)).2.2.2.1 (by decide),
   by decide, by decide,
   (radar_rescaling_spec radarZeroExample (by decide)).2.2.2.2 (by decide)⟩

lemma calculateTagStatsMap_eq_keyFold (subjectIds : List Nat)
    (detailMap : Nat → Option SubjectDetail) :
    calculateTagStatsMap subjectIds detailMap =
      subjectIds.foldl (fun stats id =>
        match genreKey detailMap id with
        | some k => bumpStat stats k
        | none => stats) [] := by
  unfold calculateTagStatsMap
  apply List.foldl_ext
  intro stats id _
  unfold genreKey
  cases detailMap id with
  | none => rfl
  | some detail => cases firstGenreTag detail.tags <;> rfl

lemma platformStatsMap_eq_keyFold (subjectIds : List Nat)
    (detailMap : Nat → Option SubjectDetail) :
    platformStatsMap subjectIds detailMap =
      subjectIds.foldl (fun stats id =>
        match platformKey detailMap id with
        | some k => bumpStat stats k
        | none => stats) [] := by
  unfold platformStatsMap
  apply List.foldl_ext
  intro stats id _
  unfold platformKey
  cases detailMap id with
  | none => rfl
  | some detail =>
    by_cases hc : detail.platform = "" ∨ detail.platform = "Unknown"
    · simp [hc]
    · simp [hc]

lemma insertionSort_count_perm (stats : List (String × Nat)) :
    (List.insertionSort countGE stats).Perm stats :=
  List.perm_insertionSort countGE stats

lemma insertionSort_count_sorted (stats : List (String × Nat)) :
    List.Pairwise (fun a b : String × Nat => b.2 ≤ a.2) (List.insertionSort countGE stats) :=
  List.sorted_insertionSort countGE stats

/-- Enrichment map with three items whose first genre tag is RPG, two
whose first genre tag is ADV, and one unenriched identifier. -/
def tagExampleDetailMap : Nat → Option SubjectDetail := fun id =>
  if id < 3 then some ⟨["foo", "rpg", "ADV"], "PC", ⟨[], []⟩⟩
  else if id < 5 then some ⟨["adv"], "PC", ⟨[], []⟩⟩
  else none

/-- Enrichment map with platform multiset PC: 3, PS5: 2, Unknown: 5. -/
def platformExampleDetailMap : Nat → Option SubjectDetail := fun id =>
  if id < 3 then some ⟨[], "PC", ⟨[], []⟩⟩
  else if id < 5 then some ⟨[], "PS5", ⟨[], []⟩⟩
  else if id < 10 then some ⟨[], "Unknown", ⟨[], []⟩⟩
  else none

/-- C5: each item increments exactly the genre bucket named by the first
tag of its enrichment record (compared case-insensitively) that belongs
to the fixed genre vocabulary, and items with no matching tag or no
record increment nothing — every bucket counts exactly the items whose
first matching tag is that genre; the radar result is the top 6 buckets
of the count-descending sorted order, each carrying its raw count and
the value count / max * 100, normalized against the maximal (head) count
among the returned buckets. -/
theorem tag_radar_spec :
    (∀ (subjectIds : List Nat) (detailMap : Nat → Option SubjectDetail) (g : String),
        lookupStat g (calculateTagStatsMap subjectIds detailMap) =
          (subjectIds.filter (fun id => genreKey detailMap id == some g)).length)
    ∧ (∀ stats : List (String × Nat),
        (List.insertionSort countGE stats).Perm stats
        ∧ List.Pairwise (fun a b : String × Nat => b.2 ≤ a.2)
            (List.insertionSort countGE stats)
        ∧ (∀ p ∈ (List.insertionSort countGE stats).take 6,
            ∀ q ∈ (List.insertionSort countGE stats).drop 6, q.2 ≤ p.2)
        ∧ (∀ p ∈ (List.insertionSort countGE stats).take 6,
            p.2 ≤ (((List.insertionSort countGE stats).take 6).headD ("", 0)).2)
        ∧ formatRadarData stats =
            ((List.insertionSort countGE stats).take 6).map (fun p =>
              ⟨p.1, (p.2 : ℚ) /
                ((((List.insertionSort countGE stats).take 6).headD ("", 0)).2 : ℚ) * 100,
               100, p.2⟩))
    ∧ (∀ (subjectIds : List Nat) (detailMap : Nat → Option SubjectDetail),
        calculateTagStats subjectIds detailMap =
          formatRadarData (calculateTagStatsMap subjectIds detailMap)) := by
  refine ⟨?_, ?_, fun _ _ => rfl⟩
  · intro subjectIds detailMap g
    rw [calculateTagStatsMap_eq_keyFold]
    have h := lookupStat_bumpFold (genreKey detailMap) subjectIds [] g
    rw [show lookupStat g [] = 0 from rfl, Nat.zero_add] at h
    exact h
  · intro stats
    have hsorted := insertionSort_count_sorted stats
    refine ⟨insertionSort_count_perm stats, hsorted, ?_, ?_, rfl⟩
    · exact fun p hp q hq => pairwise_take_drop hsorted 6 p hp q hq
    · exact sorted_headD_max (List.Pairwise.take hsorted)

theorem tag_radar_spec_witness :
    lookupStat "RPG" (calculateTagStatsMap (List.range 6) tagExampleDetailMap) = 3
    ∧ lookupStat "ADV" (calculateTagStatsMap (List.range 6) tagExampleDetailMap) = 2
    ∧ lookupStat "SLG" (calculateTagStatsMap (List.range 6) tagExampleDetailMap) = 0
    ∧ ("A", 5).2 ≤ (((List.insertionSort countGE [("B", 2), ("A", 5)]).take 6).headD
        ("", 0)).2
    ∧ calculateTagStats (List.range 6) tagExampleDetailMap =
        formatRadarData (calculateTagStatsMap (List.range 6) tagExampleDetailMap) :=
  ⟨(tag_radar_spec.1 (List.range 6) tagExampleDetailMap "RPG").trans (by decide),
   (tag_radar_spec.1 (List.range 6) tagExampleDetailMap "ADV").trans (by decide),
   (tag_radar_spec.1 (List.range 6) tagExampleDetailMap "SLG").trans (by decide),
   (tag_radar_spec.2.1 [("B", 2), ("A", 5)]).2.2.2.1 ("A", 5) (by decide),
   tag_radar_spec.2.2 (List.range 6) tagExampleDetailMap⟩

/-- C8: the platform ranking counts one increment per enriched item
under its platform string with PC renamed to Windows, while unenriched
items and the platforms Unknown and empty string count nothing — every
bucket counts exactly the items normalizing to it; the result is the
top 4 of the count-descending sorted order; on the platform multiset
PC: 3, PS5: 2, Unknown: 5 the ranking is Windows 3, PS5 2. -/
theorem platform_ranking_spec :
    (∀ (subjectIds : List Nat) (detailMap : Nat → Option SubjectDetail) (p : String),
        lookupStat p (platformStatsMap subjectIds detailMap) =
          (subjectIds.filter (fun id => platformKey detailMap id == some p)).length)
    ∧ (∀ (subjectIds : List Nat) (detailMap : Nat → Option SubjectDetail),
        calculatePlatformStats subjectIds detailMap =
          (List.insertionSort countGE (platformStatsMap subjectIds detailMap)).take 4)
    ∧ (∀ stats : List (String × Nat),
        (List.insertionSort countGE stats).Perm stats
        ∧ List.Pairwise (fun a b : String × Nat => b.2 ≤ a.2)
            (List.insertionSort countGE stats)
        ∧ (∀ p ∈ (List.insertionSort countGE stats).take 4,
            ∀ q ∈ (List.insertionSort countGE stats).drop 4, q.2 ≤ p.2))
    ∧ calculatePlatformStats (List.range 10) platformExampleDetailMap =
        [("Windows", 3), ("PS5", 2)] := by
  refine ⟨?_, fun _ _ => rfl, ?_, by decide⟩
  · intro subjectIds detailMap p
    rw [platformStatsMap_eq_keyFold]
    have h := lookupStat_bumpFold (platformKey detailMap) subjectIds [] p
    rw [show lookupStat p [] = 0 from rfl, Nat.zero_add] at h
    exact h
  · intro stats
    have hs := insertionSort_count_sorted stats
    exact ⟨insertionSort_count_perm stats, hs,
      fun p hp q hq => pairwise_take_drop hs 4 p hp q hq⟩

theorem platform_ranking_spec_witness :
    lookupStat "Windows" (platformStatsMap (List.range 10) platformExampleDetailMap) = 3
    ∧ lookupStat "PS5" (platformStatsMap (List.range 10) platformExampleDetailMap) = 2
    ∧ lookupStat "Unknown" (platformStatsMap (List.range 10) platformExampleDetailMap) = 0
    ∧ (("E", 1) : String × Nat).2 ≤ (("A", 5) : String × Nat).2 :=
  ⟨(platform_ranking_spec.1 (List.range 10) platformExampleDetailMap "Windows").trans
      (by decide),
   (platform_ranking_spec.1 (List.range 10) platformExampleDetailMap "PS5").trans
      (by decide),
   (platform_ranking_spec.1 (List.range 10) platformExampleDetailMap "Unknown").trans
      (by decide),
   (platform_ranking_spec.2.2.1 [("A", 5), ("B", 4), ("C", 3), ("D", 2), ("E", 1)]).2.2
      ("A", 5) (by decide) ("E", 1) (by decide)⟩

end BgmReport
